import Mathlib

/-!
# Verification of the cacophony-processing dispatch core

A shallow embedding of `src/main.py` (the Scheduler loop `main`,
`Processors.add`, `Processor.poll`, `Processor.reap_completed`) and of
`src/processing/thermal.py`'s `format_track_data`, together with proofs of
the specification's claims about them.

Modelling conventions:
* a `pebble` future is a `Future`: its `done()` poll and its `exception()`
  result (a `pebble` worker exception carries a pre-formatted traceback
  string, so the error detail is one string);
* the `in_progress` Python dict is an insertion-ordered association list
  with unique keys (`Nat × Future` pairs, keyed by recording id);
* the collaborators reached inside `poll` are inputs: the outcome of
  `api.next_job` is a `FetchResult` (a job, no job, or a raised exception)
  and `pool.schedule`'s returned future is a `Future` argument;
* log output is data: `reap_completed`'s failure messages are `FailLog`
  records and `poll`'s scheduling debug message is a `SchedLog` record;
* an exception that escapes a Python function is an explicit `error` field
  (the state fields of the result still hold the mutations performed
  before the raise, matching in-place mutation of `self.in_progress`).
-/

namespace CacophonyProcessing

/-- A handle to an asynchronous unit of work (`pebble` future): whether it
reports done, and—once done—the exception it raised, if any. -/
structure Future where
  done : Bool
  err : Option String
  deriving Repr, DecidableEq

/-- A job handed out by the job source: `recording["id"]` and
`recording["type"]` are the fields the core reads. -/
structure Recording where
  id : Nat
  rtype : String
  deriving Repr, DecidableEq

/-- Outcome of `self.api.next_job(...)`: a recording, `None`, or a raised
exception. -/
inductive FetchResult where
  | ok (job : Option Recording)
  | exn (msg : String)
  deriving Repr, DecidableEq

/-- One failure message logged by `reap_completed` (category, state, job id
and error detail, mirroring the f-string at `main.py:111`). -/
structure FailLog where
  recording_type : String
  processing_state : String
  recording_id : Nat
  err : String
  deriving Repr, DecidableEq

/-- The `"scheduling %s (%s: %s)"` debug message of `poll`. -/
structure SchedLog where
  recording_id : Nat
  rtype : String
  processing_state : String
  deriving Repr, DecidableEq

/-- The mutable state of one `Processor` (its `CategorySpec` plus the
`in_progress` dict of in-flight recordings). -/
structure Processor where
  recording_type : String
  processing_state : String
  num_workers : Nat
  in_progress : List (Nat × Future)
  deriving Repr, DecidableEq

/-- `Processor.__init__`: records the spec and starts with an empty
`in_progress` dict. -/
def Processor.init (recording_type processing_state : String)
    (num_workers : Nat) : Processor :=
  ⟨recording_type, processing_state, num_workers, []⟩

/-- Python-dict assignment `d[k] = v`: replace in place when the key is
present, append otherwise. -/
def dictInsert (k : Nat) (v : Future) : List (Nat × Future) → List (Nat × Future)
  | [] => [(k, v)]
  | (k0, v0) :: rest =>
    if k0 = k then (k, v) :: rest else (k0, v0) :: dictInsert k v rest

/-- `Processor.reap_completed` (`main.py:104`): walk a snapshot of
`in_progress.items()`; every entry whose future reports done is deleted,
and if its exception is set a `FailLog` is emitted.  Returns the remaining
dict and the emitted failure logs, in iteration order. -/
def reap_completed (recording_type processing_state : String) :
    List (Nat × Future) → List (Nat × Future) × List FailLog
  | [] => ([], [])
  | (k, f) :: rest =>
    let r := reap_completed recording_type processing_state rest
    if f.done then
      (r.1,
        match f.err with
        | some e => ⟨recording_type, processing_state, k, e⟩ :: r.2
        | none => r.2)
    else ((k, f) :: r.1, r.2)

/-- Everything observable about one `Processor.poll` call: the processor
state after the call, the failure logs from reaping, the scheduling debug
logs, how many times `api.next_job` was called, the recordings submitted to
the pool, and the exception propagated to the caller (if any). -/
structure PollResult where
  proc : Processor
  failLogs : List FailLog
  schedLogs : List SchedLog
  fetchCalls : Nat
  submitted : List Recording
  error : Option String
  deriving Repr, DecidableEq

/-- `Processor.poll` (`main.py:88`): reap completed futures; if the dict is
still at or over `num_workers`, return; otherwise call `next_job` once and,
if it yields a recording, log, submit it to the pool and record the
returned future under its id.  A raised fetch exception propagates with the
reaped dict already in place. -/
def poll (p : Processor) (fetch : FetchResult) (newFuture : Future) : PollResult :=
  let r := reap_completed p.recording_type p.processing_state p.in_progress
  let p1 : Processor := { p with in_progress := r.1 }
  if r.1.length ≥ p.num_workers then
    ⟨p1, r.2, [], 0, [], none⟩
  else
    match fetch with
    | .exn msg => ⟨p1, r.2, [], 1, [], some msg⟩
    | .ok none => ⟨p1, r.2, [], 1, [], none⟩
    | .ok (some rec) =>
      ⟨{ p1 with in_progress := dictInsert rec.id newFuture r.1 },
        r.2, [⟨rec.id, rec.rtype, p.processing_state⟩], 1, [rec], none⟩

/-- `Processors.add` (`main.py:64`): a no-op when `num_workers < 1`
(`num_workers` is a Python int, so it may be negative); otherwise construct
a `Processor` and append it. -/
def Processors.add (self : List Processor)
    (recording_type processing_state : String) (num_workers : Int) :
    List Processor :=
  if num_workers < 1 then self
  else self ++ [Processor.init recording_type processing_state num_workers.toNat]

/-- The per-dispatcher environment of one scheduler pass: the processor and
the collaborator behaviour its `poll` call would observe. -/
structure TickInput where
  proc : Processor
  fetch : FetchResult
  fut : Future
  deriving Repr, DecidableEq

/-- The observable outcome of one pass of the `while True` loop body
(`main.py:54`): the processors afterwards, how many of them had `poll`
called, and how many errors the scheduler's bare `except` caught and
logged. -/
structure PassResult where
  procs : List Processor
  polled : Nat
  schedErrors : Nat
  deriving Repr, DecidableEq

/-- One pass of the scheduler loop body: `for processor in processors:
processor.poll()` wrapped in one `try`/`except` (`main.py:55`).  A raised
`poll` exception leaves the `for` loop, so the remaining processors keep
their state un-ticked; the handler logs the traceback once and the pass
ends (the loop then sleeps `SLEEP_SECS`). -/
def runPass : List TickInput → PassResult
  | [] => ⟨[], 0, 0⟩
  | t :: rest =>
    let r := poll t.proc t.fetch t.fut
    match r.error with
    | some _ => ⟨r.proc :: rest.map (fun y => y.proc), 1, 1⟩
    | none =>
      let pr := runPass rest
      ⟨r.proc :: pr.procs, pr.polled + 1, pr.schedErrors⟩

end CacophonyProcessing

namespace thermal

/-- A parsed track is a JSON object: an association list with unique keys
(a Python dict), values opaque to `format_track_data`. -/
abbrev Track (V : Type) := List (String × V)

/-- `format_track_data`'s Python return value is either a dict (the `{}`
branch) or the list of tracks. -/
inductive TrackData (V : Type) where
  | dict (d : List (String × V))
  | list (ts : List (Track V))
  deriving Repr, DecidableEq

/-- `if "frame_start" in track: del track["frame_start"]` on a dict: drop
the entry with that key (a dict holds each key at most once, so dropping
every pair with the key is the same deletion). -/
def dictDelete (V : Type) (k : String) (t : Track V) : Track V :=
  t.filter (fun e => e.1 ≠ k)

/-- First-match association-list lookup, the meaning of `track[k]`. -/
def dictLookup (V : Type) (k : String) : Track V → Option V
  | [] => none
  | (k0, v) :: rest => if k0 = k then some v else dictLookup V k rest

/-- `format_track_data` (`thermal.py:111`): an empty (falsy) track list
yields the empty dict; otherwise each track loses its `"frame_start"` key
and the (mutated) list itself is returned. -/
def format_track_data (V : Type) (tracks : List (Track V)) : TrackData V :=
  if tracks.isEmpty then .dict []
  else .list (tracks.map (dictDelete V "frame_start"))

end thermal

namespace CacophonyProcessing

/-! ## Helper lemmas about `reap_completed`, `dictInsert` and `poll` -/

/-- The dict left behind by a reap keeps exactly the not-yet-done entries,
in order; in particular the reaped dict does not depend on any future's
exception field. -/
theorem reap_fst_eq_filter (rt ps : String) (m : List (Nat × Future)) :
    (reap_completed rt ps m).1 = m.filter (fun e => !e.2.done) := by
  induction m with
  | nil => rfl
  | cons kf rest ih =>
    obtain ⟨k, f⟩ := kf
    simp only [reap_completed, List.filter_cons]
    cases hd : f.done with
    | true => simpa [hd] using ih
    | false => simpa [hd] using ih

theorem reap_length_le (rt ps : String) (m : List (Nat × Future)) :
    (reap_completed rt ps m).1.length ≤ m.length := by
  rw [reap_fst_eq_filter]
  exact List.length_filter_le _ _

theorem dictInsert_length_le (k : Nat) (v : Future) (m : List (Nat × Future)) :
    (dictInsert k v m).length ≤ m.length + 1 := by
  induction m with
  | nil => simp [dictInsert]
  | cons kf rest ih =>
    obtain ⟨k0, v0⟩ := kf
    simp only [dictInsert]
    split
    · simp
    · simpa using Nat.succ_le_succ ih

/-- An exception propagates out of `poll` only when `next_job` raised it:
nothing in the reap or submit phases raises. -/
theorem poll_error_comes_from_fetch (p : Processor) (f : FetchResult)
    (nf : Future) (msg : String) (h : (poll p f nf).error = some msg) :
    f = FetchResult.exn msg := by
  cases f with
  | ok job =>
    exfalso
    cases job <;>
      · simp only [poll] at h
        split at h <;> simp at h
  | exn m2 =>
    simp only [poll] at h
    split at h <;> simp_all

/-- In every entry of a dict (unique keys), the key determines the value. -/
theorem value_eq_of_nodup_keys {m : List (Nat × Future)} {k : Nat}
    {f1 f2 : Future} (hnd : (m.map Prod.fst).Nodup)
    (h1 : (k, f1) ∈ m) (h2 : (k, f2) ∈ m) : f1 = f2 := by
  induction m with
  | nil => cases h1
  | cons kf rest ih =>
    obtain ⟨k0, v0⟩ := kf
    simp only [List.map_cons, List.nodup_cons] at hnd
    rcases List.mem_cons.1 h1 with h1h | h1t
    · rcases List.mem_cons.1 h2 with h2h | h2t
      · rw [Prod.mk.injEq] at h1h h2h
        rw [h1h.2, h2h.2]
      · exfalso
        apply hnd.1
        rw [Prod.mk.injEq] at h1h
        rw [← h1h.1]
        exact List.mem_map_of_mem Prod.fst h2t
    · rcases List.mem_cons.1 h2 with h2h | h2t
      · exfalso
        apply hnd.1
        rw [Prod.mk.injEq] at h2h
        rw [← h2h.1]
        exact List.mem_map_of_mem Prod.fst h1t
      · exact ih hnd.2 h1t h2t

/-- A done entry is gone from the dict a reap leaves behind. -/
theorem not_mem_reap_keys_of_done (rt ps : String) {m : List (Nat × Future)}
    {k : Nat} {fut : Future} (hnd : (m.map Prod.fst).Nodup)
    (hmem : (k, fut) ∈ m) (hdone : fut.done = true) :
    k ∉ (reap_completed rt ps m).1.map Prod.fst := by
  rw [reap_fst_eq_filter]
  intro hk
  rcases List.mem_map.1 hk with ⟨⟨k1, f1⟩, hmem1, hk1⟩
  simp only at hk1
  subst hk1
  have hmem1' := List.mem_of_mem_filter hmem1
  have hp := List.of_mem_filter hmem1
  have hv : fut = f1 := value_eq_of_nodup_keys hnd hmem hmem1'
  rw [← hv] at hp
  simp [hdone] at hp

/-- A not-yet-done entry survives a reap. -/
theorem mem_reap_keys_of_not_done (rt ps : String) {m : List (Nat × Future)}
    {k : Nat} {fut : Future} (hmem : (k, fut) ∈ m) (hdone : fut.done = false) :
    k ∈ (reap_completed rt ps m).1.map Prod.fst := by
  rw [reap_fst_eq_filter]
  exact List.mem_map.2 ⟨(k, fut), List.mem_filter.2 ⟨hmem, by simp [hdone]⟩, rfl⟩

/-- Every failure log emitted by a reap names an id present in the dict. -/
theorem reap_log_ids_mem (rt ps : String) (m : List (Nat × Future))
    (l : FailLog) (hl : l ∈ (reap_completed rt ps m).2) :
    l.recording_id ∈ m.map Prod.fst := by
  induction m with
  | nil => cases hl
  | cons kf rest ih =>
    obtain ⟨k, f⟩ := kf
    simp only [reap_completed] at hl
    by_cases hd : f.done
    · rw [if_pos hd] at hl
      cases herr : f.err with
      | none =>
        rw [herr] at hl
        exact List.mem_cons_of_mem _ (ih hl)
      | some e =>
        rw [herr] at hl
        rcases List.mem_cons.1 hl with hh | ht
        · rw [hh]
          exact List.mem_cons_self _ _
        · exact List.mem_cons_of_mem _ (ih ht)
    · rw [if_neg hd] at hl
      exact List.mem_cons_of_mem _ (ih hl)

/-- A reap of a dict not containing an id emits no log for that id. -/
theorem reap_log_count_zero (rt ps : String) (m : List (Nat × Future))
    (l : FailLog) (hk : l.recording_id ∉ m.map Prod.fst) :
    (reap_completed rt ps m).2.count l = 0 := by
  rw [List.count_eq_zero]
  intro hl
  exact hk (reap_log_ids_mem rt ps m l hl)

/-- A done entry whose future carries an exception is logged exactly once
by a reap, with the category, state, id and error detail. -/
theorem reap_log_count_one (rt ps : String) (m : List (Nat × Future))
    (k : Nat) (fut : Future) (e : String)
    (hnd : (m.map Prod.fst).Nodup) (hmem : (k, fut) ∈ m)
    (hdone : fut.done = true) (herr : fut.err = some e) :
    (reap_completed rt ps m).2.count (FailLog.mk rt ps k e) = 1 := by
  induction m with
  | nil => cases hmem
  | cons kf rest ih =>
    obtain ⟨k0, f0⟩ := kf
    simp only [List.map_cons, List.nodup_cons] at hnd
    rcases List.mem_cons.1 hmem with hh | ht
    · rw [Prod.mk.injEq] at hh
      obtain ⟨hk0, hf0⟩ := hh
      subst hk0
      subst hf0
      simp only [reap_completed, hdone, herr, if_true]
      rw [List.count_cons_self]
      rw [reap_log_count_zero rt ps rest (FailLog.mk rt ps k e) hnd.1]
    · have hkne : k ≠ k0 := by
        intro hkk
        exact hnd.1 (hkk ▸ List.mem_map_of_mem Prod.fst ht)
      have ihr := ih hnd.2 ht
      simp only [reap_completed]
      by_cases hd : f0.done
      · rw [if_pos hd]
        cases herr0 : f0.err with
        | none => simpa [herr0] using ihr
        | some e0 =>
          show List.count _
            (FailLog.mk rt ps k0 e0 :: (reap_completed rt ps rest).2) = 1
          rw [List.count_cons_of_ne (by simp [FailLog.mk.injEq, hkne])]
          exact ihr
      · rw [if_neg hd]
        exact ihr

/-- In every branch of `poll`, the failure logs are exactly the reap's. -/
theorem poll_failLogs_eq (p : Processor) (f : FetchResult) (nf : Future) :
    (poll p f nf).failLogs
      = (reap_completed p.recording_type p.processing_state p.in_progress).2 := by
  cases f with
  | ok job =>
    cases job <;>
      · simp only [poll]
        split <;> rfl
  | exn msg =>
    simp only [poll]
    split <;> rfl

/-- When `poll` raises, no entry was added: `in_progress` is the reaped
dict. -/
theorem poll_error_in_progress_eq (p : Processor) (nf : Future)
    (msg : String) :
    (poll p (FetchResult.exn msg) nf).proc.in_progress
      = (reap_completed p.recording_type p.processing_state p.in_progress).1 := by
  simp only [poll]
  split <;> rfl

/-! ## Claims -/

/-- **C2**: a `poll` call keeps `|in_progress|` within `num_workers`: if the
bound holds at the start of the call it holds at the end (reaping only
removes entries, and at most one entry is added, only after the length has
been checked to be strictly below `num_workers`). -/
theorem poll_preserves_capacity (p : Processor) (f : FetchResult)
    (nf : Future) (h : p.in_progress.length ≤ p.num_workers) :
    (poll p f nf).proc.in_progress.length ≤ p.num_workers := by
  have hr := reap_length_le p.recording_type p.processing_state p.in_progress
  cases f with
  | ok job =>
    cases job with
    | none =>
      simp only [poll]
      split <;> exact le_trans hr h
    | some rec =>
      simp only [poll]
      split
      · exact le_trans hr h
      · next hlt =>
        have hd := dictInsert_length_le rec.id nf
          (reap_completed p.recording_type p.processing_state p.in_progress).1
        simp only [ge_iff_le, not_le] at hlt
        show (dictInsert rec.id nf
          (reap_completed p.recording_type p.processing_state p.in_progress).1).length
            ≤ p.num_workers
        omega
  | exn msg =>
    simp only [poll]
    split <;> exact le_trans hr h

/-- Witness for C2 at a concrete input: one slot, one still-running job,
a new job offered. -/
theorem poll_preserves_capacity_witness :
    ([(1, Future.mk false none)] : List (Nat × Future)).length ≤ 1
    ∧ (poll ⟨"audio", "toMp3", 1, [(1, Future.mk false none)]⟩
        (FetchResult.ok (some ⟨2, "audio"⟩)) (Future.mk false none)).proc.in_progress.length ≤ 1 :=
  ⟨by decide,
    poll_preserves_capacity ⟨"audio", "toMp3", 1, [(1, Future.mk false none)]⟩
      (FetchResult.ok (some ⟨2, "audio"⟩)) (Future.mk false none) (by decide)⟩

/-- **C3**: when, after reaping, the dict is at (or over) capacity, `poll`
returns without calling `next_job` at all. -/
theorem poll_no_fetch_at_capacity (p : Processor) (f : FetchResult)
    (nf : Future)
    (h : (reap_completed p.recording_type p.processing_state p.in_progress).1.length
      ≥ p.num_workers) :
    (poll p f nf).fetchCalls = 0 := by
  unfold poll
  rw [if_pos h]

/-- Witness for C3: a full dict whose single future is still running. -/
theorem poll_no_fetch_at_capacity_witness :
    (reap_completed "audio" "toMp3" [(1, Future.mk false none)]).1.length ≥ 1
    ∧ (poll ⟨"audio", "toMp3", 1, [(1, Future.mk false none)]⟩
        (FetchResult.ok (some ⟨2, "audio"⟩)) (Future.mk false none)).fetchCalls = 0 :=
  ⟨by decide,
    poll_no_fetch_at_capacity ⟨"audio", "toMp3", 1, [(1, Future.mk false none)]⟩
      (FetchResult.ok (some ⟨2, "audio"⟩)) (Future.mk false none) (by decide)⟩

/-- **C4**: every `poll` call consults `next_job` at most once, whatever the
backlog or the reap outcome. -/
theorem poll_fetches_at_most_once (p : Processor) (f : FetchResult)
    (nf : Future) : (poll p f nf).fetchCalls ≤ 1 := by
  cases f with
  | ok job =>
    cases job <;>
      · simp only [poll]
        split
        · exact Nat.zero_le 1
        · exact Nat.le_refl 1
  | exn msg =>
    simp only [poll]
    split
    · exact Nat.zero_le 1
    · exact Nat.le_refl 1

/-- **C5**: when an exception propagates out of `poll` (a job-source
failure raised while fetching; in the source the reap phase performs no
job-source access, so the fetch is the only raise site), every entry whose
future already reported done has nevertheless been removed from
`in_progress` before the error reaches the Scheduler: no in-flight slot is
leaked by a transient job-source failure. -/
theorem poll_error_still_reaps (p : Processor) (f : FetchResult)
    (nf : Future) (k : Nat) (fut : Future) (msg : String)
    (hnd : (p.in_progress.map Prod.fst).Nodup)
    (hmem : (k, fut) ∈ p.in_progress) (hdone : fut.done = true)
    (herr : (poll p f nf).error = some msg) :
    k ∉ (poll p f nf).proc.in_progress.map Prod.fst := by
  have hf := poll_error_comes_from_fetch p f nf msg herr
  subst hf
  rw [poll_error_in_progress_eq]
  exact not_mem_reap_keys_of_done p.recording_type p.processing_state hnd
    hmem hdone

/-- Witness for C5: a two-slot dispatcher holding one done and one running
job; the fetch raises. -/
theorem poll_error_still_reaps_witness :
    (([(1, Future.mk true none), (2, Future.mk false none)]
        : List (Nat × Future)).map Prod.fst).Nodup
    ∧ ((1 : Nat), Future.mk true none)
        ∈ [(1, Future.mk true none), (2, Future.mk false none)]
    ∧ (Future.mk true none).done = true
    ∧ (poll ⟨"audio", "toMp3", 2, [(1, Future.mk true none), (2, Future.mk false none)]⟩
        (FetchResult.exn "connection refused") (Future.mk false none)).error
        = some "connection refused"
    ∧ 1 ∉ (poll ⟨"audio", "toMp3", 2, [(1, Future.mk true none), (2, Future.mk false none)]⟩
        (FetchResult.exn "connection refused")
        (Future.mk false none)).proc.in_progress.map Prod.fst :=
  ⟨by decide, by decide, by decide, by decide,
    poll_error_still_reaps
      ⟨"audio", "toMp3", 2, [(1, Future.mk true none), (2, Future.mk false none)]⟩
      (FetchResult.exn "connection refused") (Future.mk false none)
      1 (Future.mk true none) "connection refused"
      (by decide) (by decide) (by decide) (by decide)⟩

/-- **C6**: an entry of the `in_progress` dict is removed by the reap phase
precisely when its future reports done — so it is removed on the first
`tick` at which the handle reports done, it stays until then, and (the
right-hand side not mentioning the exception field) it is removed whether
the job succeeded or failed.  Keys are unique, so the removal is unique. -/
theorem reap_removes_exactly_done (rt ps : String) (m : List (Nat × Future))
    (k : Nat) (fut : Future)
    (hnd : (m.map Prod.fst).Nodup) (hmem : (k, fut) ∈ m) :
    (k ∈ (reap_completed rt ps m).1.map Prod.fst) ↔ fut.done = false := by
  constructor
  · intro hk
    cases hd : fut.done with
    | false => rfl
    | true => exact absurd hk (not_mem_reap_keys_of_done rt ps hnd hmem hd)
  · intro hd
    exact mem_reap_keys_of_not_done rt ps hmem hd

/-- Witness for C6: a done-and-failed entry is dropped while a running
entry is kept. -/
theorem reap_removes_exactly_done_witness :
    (([(1, Future.mk true (some "boom")), (2, Future.mk false none)]
        : List (Nat × Future)).map Prod.fst).Nodup
    ∧ ((1 : Nat), Future.mk true (some "boom"))
        ∈ [(1, Future.mk true (some "boom")), (2, Future.mk false none)]
    ∧ ((1 ∈ (reap_completed "audio" "toMp3"
        [(1, Future.mk true (some "boom")), (2, Future.mk false none)]).1.map Prod.fst)
        ↔ (Future.mk true (some "boom")).done = false) :=
  ⟨by decide, by decide,
    reap_removes_exactly_done "audio" "toMp3"
      [(1, Future.mk true (some "boom")), (2, Future.mk false none)]
      1 (Future.mk true (some "boom")) (by decide) (by decide)⟩

/-- **C7**: a reaped failed job produces exactly one failure log line in
the `poll` call, carrying the category, the state, the job id and the
error detail; and the failure never raises out of `poll` — any error that
does propagate came from the fetch, never from the reaped failure. -/
theorem poll_logs_failure_once (p : Processor) (f : FetchResult)
    (nf : Future) (k : Nat) (fut : Future) (e : String)
    (hnd : (p.in_progress.map Prod.fst).Nodup)
    (hmem : (k, fut) ∈ p.in_progress)
    (hdone : fut.done = true) (herr : fut.err = some e) :
    (poll p f nf).failLogs.count
        (FailLog.mk p.recording_type p.processing_state k e) = 1
    ∧ ∀ msg, (poll p f nf).error = some msg → f = FetchResult.exn msg := by
  refine ⟨?_, fun msg hm => poll_error_comes_from_fetch p f nf msg hm⟩
  rw [poll_failLogs_eq]
  exact reap_log_count_one _ _ _ k fut e hnd hmem hdone herr

/-- Witness for C7: one failed job in a one-slot dispatcher, idle fetch. -/
theorem poll_logs_failure_once_witness :
    (([(5, Future.mk true (some "boom"))] : List (Nat × Future)).map Prod.fst).Nodup
    ∧ ((5 : Nat), Future.mk true (some "boom")) ∈ [(5, Future.mk true (some "boom"))]
    ∧ (Future.mk true (some "boom")).done = true
    ∧ (Future.mk true (some "boom")).err = some "boom"
    ∧ ((poll ⟨"thermalRaw", "getMetadata", 1, [(5, Future.mk true (some "boom"))]⟩
          (FetchResult.ok none) (Future.mk false none)).failLogs.count
          (FailLog.mk "thermalRaw" "getMetadata" 5 "boom") = 1
        ∧ ∀ msg, (poll ⟨"thermalRaw", "getMetadata", 1, [(5, Future.mk true (some "boom"))]⟩
            (FetchResult.ok none) (Future.mk false none)).error = some msg
            → FetchResult.ok none = FetchResult.exn msg) :=
  ⟨by decide, by decide, by decide, by decide,
    poll_logs_failure_once
      ⟨"thermalRaw", "getMetadata", 1, [(5, Future.mk true (some "boom"))]⟩
      (FetchResult.ok none) (Future.mk false none)
      5 (Future.mk true (some "boom")) "boom"
      (by decide) (by decide) (by decide) (by decide)⟩

/-- **C9**: a `poll` on an empty dict when the job source has nothing is a
no-op: the dict is unchanged, nothing is submitted, and no log line (neither
failure nor scheduling debug) is produced; no error is raised either. -/
theorem poll_idle_is_noop (rt ps : String) (W : Nat) (nf : Future) :
    (poll ⟨rt, ps, W, []⟩ (FetchResult.ok none) nf).proc = ⟨rt, ps, W, []⟩
    ∧ (poll ⟨rt, ps, W, []⟩ (FetchResult.ok none) nf).failLogs = []
    ∧ (poll ⟨rt, ps, W, []⟩ (FetchResult.ok none) nf).schedLogs = []
    ∧ (poll ⟨rt, ps, W, []⟩ (FetchResult.ok none) nf).submitted = []
    ∧ (poll ⟨rt, ps, W, []⟩ (FetchResult.ok none) nf).error = none := by
  simp only [poll, reap_completed]
  split <;> simp

/-- **C8**: registering with a worker count below one is a no-op — the
ordered dispatcher list is returned unchanged; with a worker count of at
least one, exactly one dispatcher is appended, carrying the given category
and state, the given worker count, and an empty `in_progress` dict. -/
theorem processors_add_spec (self : List Processor)
    (recording_type processing_state : String) (num_workers : Int) :
    (num_workers < 1 →
      Processors.add self recording_type processing_state num_workers = self)
    ∧ (1 ≤ num_workers → ∃ p : Processor,
        Processors.add self recording_type processing_state num_workers
          = self ++ [p]
        ∧ p.recording_type = recording_type
        ∧ p.processing_state = processing_state
        ∧ p.num_workers = num_workers.toNat
        ∧ p.in_progress = []) := by
  constructor
  · intro h
    simp [Processors.add, h]
  · intro h
    refine ⟨Processor.init recording_type processing_state num_workers.toNat,
      ?_, rfl, rfl, rfl, rfl⟩
    simp [Processors.add, not_lt.2 h]

/-- Witness for C8: worker count `0` adds nothing, worker count `2` adds
one dispatcher. -/
theorem processors_add_spec_witness :
    ((0 : Int) < 1 ∧ Processors.add [] "audio" "toMp3" 0 = [])
    ∧ ((1 : Int) ≤ 2 ∧ ∃ p : Processor,
        Processors.add [] "audio" "analyse" 2 = [] ++ [p]
        ∧ p.recording_type = "audio"
        ∧ p.processing_state = "analyse"
        ∧ p.num_workers = (2 : Int).toNat
        ∧ p.in_progress = []) :=
  ⟨⟨by decide, (processors_add_spec [] "audio" "toMp3" 0).1 (by decide)⟩,
    ⟨by decide, (processors_add_spec [] "audio" "analyse" 2).2 (by decide)⟩⟩

/-- C1 as stated is false of the code: in `main` the `try` wraps the whole
`for processor in processors` loop (`main.py:55`), so once the first
dispatcher's `poll` raises, the second dispatcher of the same pass is never
ticked — here a job was available for it and it had spare capacity, yet its
dict stays empty.  The error is still caught and logged once, and the pass
completes. -/
theorem scheduler_pass_stops_at_error_counterexample :
    (runPass
        [⟨⟨"audio", "toMp3", 1, []⟩, FetchResult.exn "connection refused",
            Future.mk false none⟩,
          ⟨⟨"thermalRaw", "getMetadata", 1, []⟩,
            FetchResult.ok (some ⟨7, "thermalRaw"⟩), Future.mk false none⟩]).polled = 1
    ∧ (runPass
        [⟨⟨"audio", "toMp3", 1, []⟩, FetchResult.exn "connection refused",
            Future.mk false none⟩,
          ⟨⟨"thermalRaw", "getMetadata", 1, []⟩,
            FetchResult.ok (some ⟨7, "thermalRaw"⟩), Future.mk false none⟩]).schedErrors = 1
    ∧ (runPass
        [⟨⟨"audio", "toMp3", 1, []⟩, FetchResult.exn "connection refused",
            Future.mk false none⟩,
          ⟨⟨"thermalRaw", "getMetadata", 1, []⟩,
            FetchResult.ok (some ⟨7, "thermalRaw"⟩), Future.mk false none⟩]).procs
      = [⟨"audio", "toMp3", 1, []⟩, ⟨"thermalRaw", "getMetadata", 1, []⟩] := by
  decide

/-- **C1 (amended)**: when one dispatcher's `tick` raises during a pass,
the Scheduler catches the error and logs it exactly once and the pass
still completes — so the loop reaches the fixed delay and the next full
pass — but the remaining dispatchers of the same pass are skipped, their
state untouched; the dispatchers before the raising one were ticked
normally. -/
theorem scheduler_pass_error_isolation (pre : List TickInput) (x : TickInput)
    (rest : List TickInput) (msg : String)
    (hpre : ∀ t ∈ pre, (poll t.proc t.fetch t.fut).error = none)
    (hx : (poll x.proc x.fetch x.fut).error = some msg) :
    runPass (pre ++ x :: rest)
      = ⟨(pre.map fun t => (poll t.proc t.fetch t.fut).proc)
          ++ (poll x.proc x.fetch x.fut).proc :: rest.map (fun t => t.proc),
        pre.length + 1, 1⟩ := by
  induction pre with
  | nil =>
    simp only [List.nil_append, List.map_nil, List.length_nil, runPass, hx]
  | cons t pre ih =>
    have ht := hpre t (List.mem_cons_self _ _)
    simp only [List.cons_append, runPass, ht, List.append_eq]
    rw [ih (fun y hy => hpre y (List.mem_cons_of_mem _ hy))]
    simp

/-- Witness for C1 (amended): three dispatchers, the middle one raising. -/
theorem scheduler_pass_error_isolation_witness :
    (∀ t ∈ [(⟨⟨"audio", "toMp3", 1, []⟩, FetchResult.ok none,
        Future.mk false none⟩ : TickInput)],
      (poll t.proc t.fetch t.fut).error = none)
    ∧ (poll (⟨⟨"audio", "analyse", 1, []⟩, FetchResult.exn "boom",
        Future.mk false none⟩ : TickInput).proc
        (FetchResult.exn "boom") (Future.mk false none)).error = some "boom"
    ∧ (runPass
        [⟨⟨"audio", "toMp3", 1, []⟩, FetchResult.ok none, Future.mk false none⟩,
          ⟨⟨"audio", "analyse", 1, []⟩, FetchResult.exn "boom", Future.mk false none⟩,
          ⟨⟨"thermalRaw", "getMetadata", 1, []⟩, FetchResult.ok none,
            Future.mk false none⟩]).polled = 2
    ∧ (runPass
        [⟨⟨"audio", "toMp3", 1, []⟩, FetchResult.ok none, Future.mk false none⟩,
          ⟨⟨"audio", "analyse", 1, []⟩, FetchResult.exn "boom", Future.mk false none⟩,
          ⟨⟨"thermalRaw", "getMetadata", 1, []⟩, FetchResult.ok none,
            Future.mk false none⟩]).schedErrors = 1 :=
  ⟨by decide, by decide,
    by
      have h := scheduler_pass_error_isolation
        [⟨⟨"audio", "toMp3", 1, []⟩, FetchResult.ok none, Future.mk false none⟩]
        ⟨⟨"audio", "analyse", 1, []⟩, FetchResult.exn "boom", Future.mk false none⟩
        [⟨⟨"thermalRaw", "getMetadata", 1, []⟩, FetchResult.ok none,
          Future.mk false none⟩]
        "boom" (by decide) (by decide)
      simp only [List.cons_append, List.nil_append] at h
      rw [h]
      decide,
    by
      have h := scheduler_pass_error_isolation
        [⟨⟨"audio", "toMp3", 1, []⟩, FetchResult.ok none, Future.mk false none⟩]
        ⟨⟨"audio", "analyse", 1, []⟩, FetchResult.exn "boom", Future.mk false none⟩
        [⟨⟨"thermalRaw", "getMetadata", 1, []⟩, FetchResult.ok none,
          Future.mk false none⟩]
        "boom" (by decide) (by decide)
      simp only [List.cons_append, List.nil_append] at h
      rw [h]⟩

end CacophonyProcessing

namespace thermal

/-- Deleting a key from a track makes lookups of that key fail. -/
theorem dictLookup_dictDelete_self (V : Type) (k : String) (t : Track V) :
    dictLookup V k (dictDelete V k t) = none := by
  induction t with
  | nil => rfl
  | cons e rest ih =>
    obtain ⟨k0, v⟩ := e
    by_cases hk : k0 = k
    · simpa [dictDelete, List.filter_cons, hk] using ih
    · simpa [dictDelete, List.filter_cons, hk, dictLookup] using ih

/-- Deleting one key from a track leaves every other key's lookup
unchanged. -/
theorem dictLookup_dictDelete_ne (V : Type) (k dk : String) (t : Track V)
    (hne : k ≠ dk) :
    dictLookup V k (dictDelete V dk t) = dictLookup V k t := by
  induction t with
  | nil => rfl
  | cons e rest ih =>
    obtain ⟨k0, v⟩ := e
    by_cases hk : k0 = dk
    · have hdk : ¬ (dk = k) := fun hh => hne hh.symm
      simpa [dictDelete, List.filter_cons, hk, dictLookup, hdk] using ih
    · by_cases hk2 : k0 = k
      · simp [dictDelete, List.filter_cons, hk, dictLookup, hk2, hne]
      · simpa [dictDelete, List.filter_cons, hk, dictLookup, hk2] using ih

/-- **C10**: `format_track_data` returns the empty dict on an empty (falsy)
track collection; otherwise it returns the same track list with the key
`"frame_start"` deleted from every track that contained it: the deleted key
no longer resolves in any track, every other key of every track resolves
exactly as before, and no track is added or dropped (the list is a `map`).
-/
theorem format_track_data_spec (V : Type) (tracks : List (Track V)) :
    (tracks = [] → format_track_data V tracks = TrackData.dict [])
    ∧ (tracks ≠ [] →
        format_track_data V tracks
          = TrackData.list (tracks.map (dictDelete V "frame_start")))
    ∧ ∀ t : Track V,
        dictLookup V "frame_start" (dictDelete V "frame_start" t) = none
        ∧ ∀ k, k ≠ "frame_start" →
            dictLookup V k (dictDelete V "frame_start" t) = dictLookup V k t := by
  refine ⟨?_, ?_, ?_⟩
  · intro h
    subst h
    rfl
  · intro h
    simp [format_track_data, List.isEmpty_iff, h]
  · intro t
    exact ⟨dictLookup_dictDelete_self V "frame_start" t,
      fun k hk => dictLookup_dictDelete_ne V k "frame_start" t hk⟩

/-- Witness for C10: the empty list, and a one-track list containing
`"frame_start"` and one other key. -/
theorem format_track_data_spec_witness :
    format_track_data String [] = TrackData.dict []
    ∧ ([[("frame_start", "a"), ("label", "cat")]] ≠ ([] : List (Track String)))
    ∧ format_track_data String [[("frame_start", "a"), ("label", "cat")]]
        = TrackData.list
            ([[("frame_start", "a"), ("label", "cat")]].map
              (dictDelete String "frame_start"))
    ∧ ("label" : String) ≠ "frame_start"
    ∧ dictLookup String "label"
        (dictDelete String "frame_start" [("frame_start", "a"), ("label", "cat")])
        = dictLookup String "label" [("frame_start", "a"), ("label", "cat")] :=
  ⟨(format_track_data_spec String []).1 rfl,
    by decide,
    (format_track_data_spec String [[("frame_start", "a"), ("label", "cat")]]).2.1
      (by decide),
    by decide,
    ((format_track_data_spec String [[("frame_start", "a"), ("label", "cat")]]).2.2
        [("frame_start", "a"), ("label", "cat")]).2 "label" (by decide)⟩

end thermal
